import Mathlib

/-!
Shallow embedding of the TheCrate backend (Python/Flask) core pipeline:
prompt analysis fallback, query generation, catalog-search orchestration,
track deduplication/ranking, and the sample-scoring heuristics.

Sources embedded:
* `src/app/gpt_utils.py` — analysis fallback, query generators, ranker
* `src/routes.py`        — the `/recommend` handler and its legacy fallback
* `src/app.py`           — `calculate_sample_score`, `grade_track_for_sampling`

External collaborators (the OpenAI completion API, the Spotify catalog
search client, the process clock and the OS entropy source) are modelled
as parameters, following the spec's component boundaries (§4.3).
Python strings are modelled through `List Char`; machine-level caveats
(Python's unbounded ints are `Int`/`Nat`, `str` ops are re-implemented
structurally so that terms evaluate in the kernel) are noted inline.
-/

/-! ### Python string primitives -/

/-- Characters treated as whitespace by Python's `str.strip()` / `str.split()`
(ASCII space, tab, newline, carriage return; exotic Unicode spaces are not
modelled — no input in this development uses them). -/
def isSpaceChar (c : Char) : Bool := c.isWhitespace

/-- `listStarts n h` : the list `n` is an initial segment of `h`. -/
def listStarts : List Char → List Char → Bool
  | [], _ => true
  | _ :: _, [] => false
  | a :: as, b :: bs => a == b && listStarts as bs

/-- `listContains h n` : Python's `n in h` substring test on char lists. -/
def listContains : List Char → List Char → Bool
  | [], n => n.isEmpty
  | c :: rest, n => listStarts n (c :: rest) || listContains rest n

/-- Python's `needle in hay` for strings. -/
def strContains (hay needle : String) : Bool :=
  listContains hay.toList needle.toList

/-- Python's `str.lower()` (ASCII case folding, as used by the sources). -/
def pyLower (s : String) : String := String.mk (s.toList.map Char.toLower)

/-- Strip whitespace from both ends of a char list. -/
def pyStripList (cs : List Char) : List Char :=
  ((cs.dropWhile isSpaceChar).reverse.dropWhile isSpaceChar).reverse

/-- Python's `str.strip()`. -/
def pyStrip (s : String) : String := String.mk (pyStripList s.toList)

/-- Python's `str.strip('"')`: remove double-quote characters from both ends. -/
def pyStripQuotes (s : String) : String :=
  String.mk (((s.toList.dropWhile (· == '"')).reverse.dropWhile (· == '"')).reverse)

/-- Worker for `pySplitWs`; `cur` is the reversed current token. -/
def pySplitWsGo (cur : List Char) : List Char → List String
  | [] => if cur.isEmpty then [] else [String.mk cur.reverse]
  | c :: rest =>
    if isSpaceChar c then
      if cur.isEmpty then pySplitWsGo [] rest
      else String.mk cur.reverse :: pySplitWsGo [] rest
    else pySplitWsGo (c :: cur) rest

/-- Python's no-argument `str.split()`: split on whitespace runs, no empties. -/
def pySplitWs (s : String) : List String := pySplitWsGo [] s.toList

/-- Numeric value of a digit list (little reading, base 10). -/
def digitsToNat (ds : List Char) : Nat :=
  ds.foldl (fun a c => a * 10 + (c.toNat - 48)) 0

/-- Python's `int(s)` on strings: optional surrounding whitespace, optional
sign, at least one ASCII digit; anything else raises `ValueError`, modelled
as `none`. (Underscore separators and non-ASCII digits are not modelled;
no input in the repository's data shapes uses them.) -/
def pyInt (s : String) : Option Int :=
  match pyStripList s.toList with
  | '-' :: ds =>
    if ds.isEmpty = false && ds.all Char.isDigit then some (-(digitsToNat ds : Int)) else none
  | '+' :: ds =>
    if ds.isEmpty = false && ds.all Char.isDigit then some ((digitsToNat ds : Int)) else none
  | ds =>
    if ds.isEmpty = false && ds.all Char.isDigit then some ((digitsToNat ds : Int)) else none

/-- Fuelled worker for `pyReplace`; fuel bounds the number of steps, each of
which consumes at least one input char, so `input.length` fuel is enough. -/
def pyReplaceGo : Nat → List Char → List Char → List Char → List Char
  | 0, _, _, _ => []
  | _ + 1, _, _, [] => []
  | fuel + 1, pat, repl, c :: rest =>
    if pat.isEmpty = false && listStarts pat (c :: rest) then
      repl ++ pyReplaceGo fuel pat repl ((c :: rest).drop pat.length)
    else c :: pyReplaceGo fuel pat repl rest

/-- Python's `s.replace(pat, repl)` (all non-overlapping occurrences, left to
right; every call site in the sources uses a non-empty `pat`). -/
def pyReplace (s pat repl : String) : String :=
  String.mk (pyReplaceGo s.toList.length pat.toList repl.toList s.toList)

/-- Worker for `pyDedup`: keep a string when it has not been seen yet. -/
def pyDedupGo (seen : List String) : List String → List String
  | [] => []
  | q :: rest =>
    if q ∈ seen then pyDedupGo seen rest else q :: pyDedupGo (q :: seen) rest

/-- Python's `list(dict.fromkeys(l))`: remove duplicates, keeping the first
occurrence of each string in order. -/
def pyDedup (l : List String) : List String := pyDedupGo [] l

/-- Python truthiness of an optional integer (`None` and `0` are falsy). -/
def truthyInt : Option Int → Bool
  | none => false
  | some n => n != 0

/-- A string that is empty or whitespace-only (i.e. blank). -/
def pyIsBlank (s : String) : Bool := s.toList.all isSpaceChar

/-! ### `gpt_utils.py`: the analysis object

The completion API's JSON schema from `get_prompt_analysis`
(`src/app/gpt_utils.py:65-77`), as populated by `create_fallback_analysis`. -/

structure Analysis where
  style_description : String
  pioneer_artists : List String
  contemporary_artists : List String
  classic_tracks : List String
  key_albums : List String
  related_styles : List String
  instruments : List String
  era : String
  mood_keywords : List String
  avoid_terms : List String
  analysis_approach : String
  deriving DecidableEq, Repr

/-- The five persona instructions of `get_prompt_analysis`
(`src/app/gpt_utils.py:42-48`). -/
def analysis_variations : List String :=
  [ "You are a music historian focusing on the PIONEERS and FOUNDERS of this sound."
  , "You are a contemporary music curator focused on MODERN ARTISTS and CURRENT SCENES."
  , "You are an underground music expert focused on OBSCURE and LESSER-KNOWN artists."
  , "You are a music anthropologist studying the CULTURAL and REGIONAL aspects of this sound."
  , "You are a record collector focused on VINTAGE and CLASSIC representations of this style." ]

/-- The genre keyword table of `create_fallback_analysis`
(`src/app/gpt_utils.py:116-124`), in source (= dict insertion) order:
keyword ↦ (genre, era, pioneers). -/
def genre_keywords : List (String × String × String × List String) :=
  [ ("boom bap", "hip hop", "90s", ["DJ Premier", "Pete Rock", "Large Professor"])
  , ("jazz", "jazz", "50s-70s", ["Miles Davis", "John Coltrane", "Bill Evans"])
  , ("lo-fi", "lo-fi", "2010s", ["Nujabes", "J Dilla", "Madlib"])
  , ("trap", "trap", "2010s", ["Metro Boomin", "Southside", "Lex Luger"])
  , ("house", "house", "80s-90s", ["Frankie Knuckles", "Larry Heard", "Marshall Jefferson"])
  , ("soul", "soul", "60s-70s", ["James Brown", "Marvin Gaye", "Aretha Franklin"])
  , ("funk", "funk", "70s", ["James Brown", "Parliament-Funkadelic", "Sly Stone"]) ]

/-- `create_fallback_analysis(prompt, approach)` (`src/app/gpt_utils.py:110-147`).
The `avoid_terms` entry evaluates `[prompt.split()[0]] if prompt else []`;
when `prompt` is non-empty but `prompt.split()` is empty (a whitespace-only
prompt) the `[0]` index raises `IndexError`, modelled as `Except.error`. -/
def create_fallback_analysis (prompt approach : String) : Except String Analysis :=
  let prompt_lower := pyLower prompt
  let detected :=
    ((genre_keywords.find? (fun kw => strContains prompt_lower kw.1)).map (·.2)).getD
      ("various", "various", ["Various Artists"])
  match (if prompt = "" then some ([] : List String)
         else (pySplitWs prompt).head?.map (fun w => [w])) with
  | none => .error "IndexError: list index out of range"
  | some avoid =>
    .ok { style_description :=
            detected.1 ++ " style music from the " ++ detected.2.1 ++ " era"
        , pioneer_artists := detected.2.2
        , contemporary_artists := ["Modern Artist 1", "Modern Artist 2"]
        , classic_tracks := ["Classic " ++ detected.1 ++ " track"]
        , key_albums := ["Essential " ++ detected.1 ++ " album"]
        , related_styles := [detected.1]
        , instruments := ["drums", "bass", "samples"]
        , era := detected.2.1
        , mood_keywords := ["rhythmic", "groovy"]
        , avoid_terms := avoid
        , analysis_approach := approach }

/-! ### The process-wide pseudo-random source

`gpt_utils.py` uses the process-global `random` module: it calls
`random.seed(s)` (state becomes a fixed function of `s`), draws, then
`random.seed()` (state is re-seeded from OS entropy).  The generator is
modelled as an abstract state type `σ` with the operations the sources use;
`sysSeed` is the (unknown) state produced by an entropy re-seed and
`hashStr` models Python's per-process `hash` on strings. -/

structure RngModel (σ : Type) where
  seedWith : Int → σ
  choiceIdx : Nat → σ → Nat × σ
  shuffleStrings : List String → σ → List String × σ
  randintUpTo20 : σ → Int × σ
  hashStr : String → Int
  sysSeed : σ

/-- `get_prompt_analysis(prompt, refresh_seed)` (`src/app/gpt_utils.py:38-108`).
The completion round trip is external I/O, passed in as `completion`:
`Except.error` covers both transport failures and unparsable JSON
(`json.JSONDecodeError`), which the source treats identically; `Except.ok`
is the parsed object of a successful call (returned as-is, unvalidated).
On failure the source calls `create_fallback_analysis`, whose own
`IndexError` (see above) is not caught and therefore propagates. -/
def get_prompt_analysis {σ : Type} (R : RngModel σ) (completion : Except Unit Analysis)
    (prompt : String) (refresh_seed : Option Int) (st : σ) :
    Except String Analysis × σ :=
  let approachSt : String × σ :=
    match refresh_seed with
    | some s =>
      let st1 := R.seedWith s
      let (i, _) := R.choiceIdx analysis_variations.length st1
      ((analysis_variations.getD i ""), R.sysSeed)
    | none => (analysis_variations.getD 0 "", st)
  match completion with
  | .ok a => (.ok a, approachSt.2)
  | .error _ => (create_fallback_analysis prompt approachSt.1, approachSt.2)

/-! ### `gpt_utils.py`: query generation -/

/-- The query list built by `generate_artist_focused_queries` before cleanup
(`src/app/gpt_utils.py:158-185`): pioneer-artist queries, contemporary-artist
queries, style (± era-prefixed) queries, era queries, the raw prompt and its
`drums` variants. -/
def built_queries (prompt : String) (analysis : Analysis) : List String :=
  ((analysis.pioneer_artists.take 3).filter
      (fun a => a ≠ "" ∧ a ≠ "Various Artists")).map
    (fun a => "artist:\x22" ++ a ++ "\x22")
  ++ ((analysis.contemporary_artists.take 2).filter
      (fun a => a ≠ "" ∧ a ≠ "Modern Artist 1" ∧ a ≠ "Modern Artist 2")).map
    (fun a => "artist:\x22" ++ a ++ "\x22")
  ++ (analysis.related_styles.take 2).flatMap
    (fun style =>
      if style ≠ "" then
        style :: (if analysis.era ≠ "" then [analysis.era ++ " " ++ style] else [])
      else [])
  ++ (if analysis.era ≠ "" ∧ analysis.era ≠ "various" then
        [analysis.era ++ " music", analysis.era ++ " instrumental"] else [])
  ++ [prompt]
  ++ (if strContains (pyLower prompt) "drums" then
        [pyReplace prompt "drums" "beats", pyReplace prompt "drums" "percussion"]
      else [])

/-- The cleanup pass `[q.strip() for q in queries if q and q.strip()]`
(`src/app/gpt_utils.py:188`). -/
def cleaned_queries (prompt : String) (analysis : Analysis) : List String :=
  (built_queries prompt analysis).filterMap
    (fun q => if q ≠ "" ∧ pyStrip q ≠ "" then some (pyStrip q) else none)

/-- `generate_artist_focused_queries(prompt, analysis, refresh_seed)`
(`src/app/gpt_utils.py:149-191`); `refresh_seed` is accepted but unused,
as in the source. -/
def generate_artist_focused_queries (prompt : String) (analysis : Analysis)
    (_refresh_seed : Option Int) : List String :=
  (pyDedup (cleaned_queries prompt analysis)).take 10

/-- `generate_discovery_queries(analysis, refresh_seed)`
(`src/app/gpt_utils.py:193-210`). -/
def generate_discovery_queries (analysis : Analysis) (_refresh_seed : Option Int) :
    List String :=
  ((analysis.related_styles.take 2).flatMap
    (fun style =>
      if style ≠ "" then [style ++ " instrumental", style ++ " samples"] else [])
  ++ (if analysis.era ≠ "" ∧ analysis.era ≠ "various" then
        ["vintage " ++ analysis.era, analysis.era ++ " classics"] else [])).take 5

/-- The query assembly and seeded shuffle of `get_ai_powered_recommendations`
(`src/app/gpt_utils.py:230-245`), after the seed default has been resolved:
main queries + discovery queries; when the seed is truthy the combined list
is shuffled from a generator state that is a function of the seed alone,
after which the generator is re-seeded from OS entropy. -/
def combine_and_shuffle {σ : Type} (R : RngModel σ) (prompt : String)
    (analysis : Analysis) (refresh_seed : Int) (st : σ) : List String × σ :=
  let main_queries := generate_artist_focused_queries prompt analysis (some refresh_seed)
  let discovery_queries := generate_discovery_queries analysis (some refresh_seed)
  let all_queries := main_queries ++ discovery_queries
  if refresh_seed ≠ 0 then
    let st1 := R.seedWith refresh_seed
    let (shuffled, _) := R.shuffleStrings all_queries st1
    (shuffled, R.sysSeed)
  else (all_queries, st)

/-- `get_ai_powered_recommendations(prompt, refresh_seed)`
(`src/app/gpt_utils.py:212-245`): defaults the seed to `int(time.time())`
(the clock is external, passed as `now`), runs the analysis, generates and
combines queries, and shuffles when the (defaulted) seed is truthy. -/
def get_ai_powered_recommendations {σ : Type} (R : RngModel σ) (now : Int)
    (completion : Except Unit Analysis) (prompt : String)
    (refresh_seed : Option Int) (st : σ) :
    Except String ((Analysis × List String × Int) × σ) :=
  let seed := refresh_seed.getD now
  match get_prompt_analysis R completion prompt (some seed) st with
  | (.error e, _) => .error e
  | (.ok analysis, st1) =>
    let (all_queries, st2) := combine_and_shuffle R prompt analysis seed st1
    .ok ((analysis, all_queries, seed), st2)

/-! ### `gpt_utils.py`: the ranker / deduplicator -/

/-- A normalized track record as consumed by the ranker: `id` is `none` when
the `'id'` key is absent (Python `track.get('id')` → `None`); the remaining
fields default to `''` when absent, so they are plain strings. -/
structure Track where
  id : Option String
  title : String
  artist : String
  release_date : String
  deriving DecidableEq, Repr

/-- The `'id'` value used in truthiness tests and as a set key:
`track.get('id')` with both "absent" and `''` being falsy. -/
def idVal (t : Track) : String := t.id.getD ""

/-- The fallback deduplication key `f"{title}-{artist}"`
(`src/app/gpt_utils.py:294`). -/
def trackKey (t : Track) : String := t.title ++ "-" ++ t.artist

/-- The deduplication loop of `ai_filter_and_rank_tracks`
(`src/app/gpt_utils.py:285-297`).  A single `seen_ids` set holds both track
ids and `title-artist` keys; a track with a truthy id is kept iff its id is
unseen, an id-less track is kept iff its `title-artist` key is unseen. -/
def dedupGo (seen : List String) : List Track → List Track
  | [] => []
  | t :: rest =>
    if idVal t ≠ "" then
      if idVal t ∈ seen then dedupGo seen rest
      else t :: dedupGo (idVal t :: seen) rest
    else
      if trackKey t ∈ seen then dedupGo seen rest
      else t :: dedupGo (trackKey t :: seen) rest

/-- Deduplicate a track list (the first phase of `ai_filter_and_rank_tracks`). -/
def dedupTracks (tracks : List Track) : List Track := dedupGo [] tracks

/-- The era bonus inside `rank_track` (`src/app/gpt_utils.py:322-334`):
+25 when the era label contains `90s`/`80s`/`70s` (checked in that order)
and `int(release_date[:4])` falls in the matching decade; parse failures
are swallowed by the bare `except`. -/
def eraBonus (era rd : String) : Int :=
  if era ≠ "" ∧ rd ≠ "" then
    match pyInt (String.mk (rd.toList.take 4)) with
    | some y =>
      if strContains era "90s" = true ∧ 1990 ≤ y ∧ y ≤ 1999 then 25
      else if strContains era "80s" = true ∧ 1980 ≤ y ∧ y ≤ 1989 then 25
      else if strContains era "70s" = true ∧ 1970 ≤ y ∧ y ≤ 1979 then 25
      else 0
    | none => 0
  else 0

/-- The deterministic part of `rank_track` (`src/app/gpt_utils.py:302-334`):
pioneer/contemporary artist substring bonus (mutually exclusive, pioneers
first), +10 per mood keyword contained in the title, and the era bonus. -/
def rank_track_base (analysis : Analysis) (t : Track) : Int :=
  let artist := pyLower t.artist
  let s1 : Int :=
    if (analysis.pioneer_artists.map pyLower).any (fun p => strContains artist p) then 50
    else if (analysis.contemporary_artists.map pyLower).any
        (fun c => strContains artist c) then 30
    else 0
  let title := pyLower t.title
  let s2 : Int :=
    10 * ((analysis.mood_keywords.filter (fun k => strContains title (pyLower k))).length : Int)
  s1 + s2 + eraBonus analysis.era t.release_date

/-- `rank_track` including the refresh jitter (`src/app/gpt_utils.py:336-342`):
with a truthy seed the generator is re-seeded with
`refresh_seed + hash(track.get('id', track.get('title', '')))`, a jitter in
`[0, 20]` is drawn, and the generator is re-seeded from OS entropy. -/
def rank_track {σ : Type} (R : RngModel σ) (analysis : Analysis)
    (refresh_seed : Option Int) (t : Track) (st : σ) : Int × σ :=
  let base := rank_track_base analysis t
  if truthyInt refresh_seed then
    let hashed := R.hashStr (match t.id with | some s => s | none => t.title)
    let st1 := R.seedWith (refresh_seed.getD 0 + hashed)
    let (jitter, _) := R.randintUpTo20 st1
    (base + jitter, R.sysSeed)
  else (base, st)

/-- Score every track in order, threading the generator state (CPython's
`sorted(..., key=f)` evaluates `f` once per element, in input order). -/
def rankMap {σ : Type} (R : RngModel σ) (analysis : Analysis)
    (refresh_seed : Option Int) : List Track → σ → List (Track × Int) × σ
  | [], st => ([], st)
  | t :: ts, st =>
    let (s, st1) := rank_track R analysis refresh_seed t st
    let (rest, st2) := rankMap R analysis refresh_seed ts st1
    ((t, s) :: rest, st2)

/-- `ai_filter_and_rank_tracks(tracks, prompt, analysis, refresh_seed)`
(`src/app/gpt_utils.py:276-348`): dedup, score, stable sort by descending
score (`sorted(..., reverse=True)`), truncate to 20. -/
def ai_filter_and_rank_tracks {σ : Type} (R : RngModel σ) (tracks : List Track)
    (_prompt : String) (analysis : Analysis) (refresh_seed : Option Int)
    (st : σ) : List Track × σ :=
  if tracks.isEmpty then ([], st)
  else
    let unique_tracks := dedupTracks tracks
    let (scored, st1) := rankMap R analysis refresh_seed unique_tracks st
    (((scored.mergeSort (fun a b => decide (b.2 ≤ a.2))).map (·.1)).take 20, st1)

/-! ### `routes.py`: the `'"(.+?)" by (.+)'` regex

Both `recommend` (line 66) and `recommend_legacy_internal` (line 141) match
lines of the form `"title" by artist` with the regex
`[""](.+?)[""]\s+by\s+(.+)$` — the character class holds two ASCII
double-quote characters (bytes `5b 22 22 5d`).  `.` does not match a
newline; `$` matches at the end or just before one trailing newline. -/

/-- Match `\s+by\s+(.+)$` against the characters after the closing quote,
returning the artist group. -/
def matchBy (cs : List Char) : Option String :=
  if (cs.takeWhile isSpaceChar).isEmpty then none
  else
    match cs.dropWhile isSpaceChar with
    | 'b' :: 'y' :: r2 =>
      if (r2.takeWhile isSpaceChar).isEmpty then none
      else
        let r3 := r2.dropWhile isSpaceChar
        let core := if r3.getLast? = some '\n' then r3.dropLast else r3
        if core.isEmpty = false && core.all (· ≠ '\n') then some (String.mk core)
        else none
    | _ => none

/-- Scan for the lazy `(.+?)` title group: at each position, first try to
close the quote and match the `by` tail (shortest title wins), otherwise
extend the title with the current character (which `.` cannot do across a
newline).  `acc` is the reversed title so far. -/
def matchTitleRest (acc : List Char) : List Char → Option (String × String)
  | [] => none
  | c :: rest =>
    if c == '"' ∧ acc.isEmpty = false then
      match matchBy rest with
      | some artist => some (String.mk acc.reverse, artist)
      | none => if c ≠ '\n' then matchTitleRest (c :: acc) rest else none
    else if c ≠ '\n' then matchTitleRest (c :: acc) rest
    else none

/-- `re.match(r'^[""](.+?)[""]\s+by\s+(.+)$', s)`: opening quote first. -/
def parseQuotedBy (s : String) : Option (String × String) :=
  match s.toList with
  | c :: rest => if c == '"' then matchTitleRest [] rest else none
  | [] => none

/-- `re.match(r'^\d+\.\s*[""](.+?)[""]\s+by\s+(.+)$', line.strip())`
from `recommend_legacy_internal` (`src/routes.py:141`). -/
def parseLegacyLine (line : String) : Option (String × String) :=
  let cs := pyStripList line.toList
  if (cs.takeWhile Char.isDigit).isEmpty then none
  else
    match cs.dropWhile Char.isDigit with
    | '.' :: r2 =>
      (match r2.dropWhile isSpaceChar with
       | c :: rest => if c == '"' then matchTitleRest [] rest else none
       | [] => none)
    | _ => none

/-! ### `routes.py`: the `/recommend` handler -/

/-- A JSON HTTP response of the blueprint routes, restricted to the fields
the claims observe: `ok tracks mode` is a 200 body with a `tracks` list and
a `mode` tag; `clientError` is a 400; `serverError` is a 500. -/
inductive HttpResult where
  | ok (tracks : List Track) (mode : String)
  | clientError (msg : String)
  | serverError (msg : String)
  deriving Repr

/-- `get_sample_suggestions(prompt)` (`src/app/gpt_utils.py:254-273`):
formats the first five generated queries as numbered `"title" by artist`
lines; any exception inside (including one raised by the analysis) yields
the fixed two-line fallback string.  The internal
`get_ai_powered_recommendations` call is external to this function's
callers, passed in as its outcome `ai`. -/
def get_sample_suggestions (ai : Except Unit (Analysis × List String × Int)) : String :=
  match ai with
  | .error _ =>
    "1. \x22Sample Track\x22 by Various Artists\n2. \x22Sample Track 2\x22 by Various Artists"
  | .ok (_, queries, _) =>
    String.intercalate "\n"
      ((queries.take 5).enum.map (fun p =>
        let i := p.1 + 1
        let query := p.2
        if strContains query "artist:" then
          toString i ++ ". \x22Sample Track " ++ toString i ++ "\x22 by " ++
            pyStripQuotes (pyReplace query "artist:" "")
        else
          toString i ++ ". \x22Sample Track " ++ toString i ++ "\x22 by " ++ query))

/-- `recommend_legacy_internal(prompt, era)` (`src/routes.py:130-163`):
split the suggestion text into lines, parse each `#. "title" by artist`
line, resolve it through the catalog client (`search_track`), and answer
200 with the resolved tracks.  `searchTrackFn` is the Catalog Search
Client's `search_track(title, artist)` (external, swallows its own errors). -/
def recommend_legacy_internal (searchTrackFn : String → String → Option Track)
    (legacyAi : Except Unit (Analysis × List String × Int))
    (_prompt _era : String) : HttpResult :=
  let raw := get_sample_suggestions legacyAi
  let lines := (pyStrip raw).splitOn "\n"
  let track_list := lines.filterMap (fun line =>
    (parseLegacyLine line).bind (fun p => searchTrackFn (pyStrip p.1) (pyStrip p.2)))
  .ok track_list "legacy"

/-- The per-query fallback of the `recommend` search loop
(`src/routes.py:64-84`), taken when the enhanced search returned nothing:
parse `"title" by artist`, else an `artist:` query, else a general query,
each resolved through `search_track`. -/
def fallbackSearch (searchTrackFn : String → String → Option Track)
    (query : String) : Option Track :=
  match parseQuotedBy (pyStrip query) with
  | some p => searchTrackFn (pyStrip p.1) (pyStrip p.2)
  | none =>
    if strContains (pyLower query) "artist:" then
      searchTrackFn "" (pyStripQuotes (pyStrip (pyReplace (pyLower query) "artist:" "")))
    else searchTrackFn "" query

/-- Observable state of the `recommend` search loop: the accumulated
tracks, the `search_count` counter, and — as instrumentation not present in
the source state — the list of queries for which an enhanced search was
issued (one per loop iteration, in order). -/
structure LoopOut where
  tracks : List Track
  cnt : Nat
  issued : List String
  deriving Repr

/-- The search loop of `recommend` (`src/routes.py:49-95`).  Per query:
call `search_tracks_enhanced`; when it returns tracks, extend the
accumulator, bump `search_count` and `continue` — skipping the early-stop
check; when it returns none, fall back to a single `search_track` lookup,
bump `search_count`, and stop once the accumulated count reaches 20
(falsy `refresh_seed`) or 30 (truthy).  `searchEnh` is the Catalog Search
Client's `search_tracks_enhanced(query, limit=10)`. -/
def searchLoopGo (searchEnh : String → List Track)
    (searchTrackFn : String → String → Option Track) (refresh : Bool) :
    List String → List Track → Nat → List String → LoopOut
  | [], acc, cnt, iss => ⟨acc, cnt, iss⟩
  | query :: rest, acc, cnt, iss =>
    let ts := searchEnh query
    if ts.isEmpty = false then
      searchLoopGo searchEnh searchTrackFn refresh rest (acc ++ ts) (cnt + 1)
        (iss ++ [query])
    else
      let acc2 := match fallbackSearch searchTrackFn query with
        | some t => acc ++ [t]
        | none => acc
      if (refresh = false ∧ 20 ≤ acc2.length) ∨ (refresh = true ∧ 30 ≤ acc2.length) then
        ⟨acc2, cnt + 1, iss ++ [query]⟩
      else searchLoopGo searchEnh searchTrackFn refresh rest acc2 (cnt + 1) (iss ++ [query])

/-- The `recommend` search loop over the first 8 queries
(`for query in search_queries[:8]`). -/
def searchLoop (searchEnh : String → List Track)
    (searchTrackFn : String → String → Option Track) (refresh : Bool)
    (search_queries : List String) : LoopOut :=
  searchLoopGo searchEnh searchTrackFn refresh (search_queries.take 8) [] 0 []

/-- The `/recommend` handler (`src/routes.py:12-128`).  `ai` is the outcome
of the `get_ai_powered_recommendations` call (analysis, queries, used seed —
or an exception), `legacyAi` the outcome of the analysis call made inside
the legacy path's `get_sample_suggestions`.  A missing prompt answers 400;
an analysis exception, or an enhanced run that accumulated no tracks, falls
back to the legacy pipeline; otherwise the handler answers 200 with the
accumulated tracks in `enhanced` mode. -/
def recommend (searchEnh : String → List Track)
    (searchTrackFn : String → String → Option Track)
    (ai legacyAi : Except Unit (Analysis × List String × Int))
    (prompt era : String) (refresh_seed : Option Int) : HttpResult :=
  if prompt = "" then .clientError "Prompt required"
  else
    match ai with
    | .error _ => recommend_legacy_internal searchTrackFn legacyAi prompt era
    | .ok (_, search_queries, _) =>
      let out := searchLoop searchEnh searchTrackFn (truthyInt refresh_seed) search_queries
      if out.tracks.isEmpty then recommend_legacy_internal searchTrackFn legacyAi prompt era
      else .ok out.tracks "enhanced"

/-! ### `app.py`: sample scoring -/

/-- The raw Spotify track object as read by `calculate_sample_score`
(`src/app.py:407-433`): `track.get('popularity', 50)` (absent → 50),
`track.get('album', {}).get('release_date', '')` (absent → `''`), and
`track.get('explicit', False)`. -/
structure RawTrack where
  popularity : Option Int
  release_date : String
  explicit : Bool
  deriving DecidableEq, Repr

/-- `calculate_sample_score(track)` (`src/app.py:407-433`): +30/+15 for low
popularity, +25/+20/+15 by release-year bucket (`int(release_date[:4])`,
with `2020` substituted when the date string is shorter than 4 chars; a
non-numeric 4-char prefix raises `ValueError`, uncaught here), +10 for
explicit, capped at 100. -/
def calculate_sample_score (t : RawTrack) : Except String Int :=
  let p := t.popularity.getD 50
  let s1 : Int := if p < 30 then 30 else if p < 60 then 15 else 0
  let sExp : Int := if t.explicit then 10 else 0
  if t.release_date ≠ "" then
    match (if 4 ≤ t.release_date.length then
             (match pyInt (String.mk (t.release_date.toList.take 4)) with
              | some y => Except.ok y
              | none => Except.error "ValueError: invalid literal for int()")
           else Except.ok 2020 : Except String Int) with
    | .error e => .error e
    | .ok year =>
      let s2 : Int := if year < 1980 then 25 else if year < 1990 then 20
        else if year < 2000 then 15 else 0
      .ok (min (s1 + s2 + sExp) 100)
  else .ok (min (s1 + sExp) 100)

/-- `grade_track_for_sampling(track)` (`src/app.py:456-467`): letter grade
from the sample score: ≥70 → A, ≥50 → B, ≥30 → C, else D.  An exception
from the score computation propagates. -/
def grade_track_for_sampling (t : RawTrack) : Except String String :=
  match calculate_sample_score t with
  | .error e => .error e
  | .ok score =>
    .ok (if 70 ≤ score then "A" else if 50 ≤ score then "B"
         else if 30 ≤ score then "C" else "D")

/-! ### Auxiliary specification-side definitions -/

/-- The textbook left fold that removes duplicates while preserving each
string's first occurrence; used to characterise `pyDedup`
(`list(dict.fromkeys(...))`). -/
def firstOccurFold (l : List String) : List String :=
  l.foldl (fun acc q => if q ∈ acc then acc else acc ++ [q]) []

/-- The key under which the deduplication loop registers a track in its
single `seen_ids` set: the id when truthy, else the `title-artist` key. -/
def keyOf (t : Track) : String := if idVal t ≠ "" then idVal t else trackKey t

/-! ## Helper lemmas -/

theorem listStarts_nil (h : List Char) : listStarts [] h = true := by
  cases h <;> rfl

theorem pyDedupGo_mem_of_mem {l seen : List String} {q : String}
    (h : q ∈ pyDedupGo seen l) : q ∈ l := by
  induction l generalizing seen with
  | nil => simp [pyDedupGo] at h
  | cons x rest ih =>
    have h' := h
    by_cases hx : x ∈ seen
    · simp only [pyDedupGo, if_pos hx] at h'
      exact List.mem_cons_of_mem _ (ih h')
    · simp only [pyDedupGo, if_neg hx, List.mem_cons] at h'
      rcases h' with h' | h'
      · simp [h']
      · exact List.mem_cons_of_mem _ (ih h')

theorem pyDedupGo_not_mem_seen {l seen : List String} {q : String}
    (h : q ∈ pyDedupGo seen l) : q ∉ seen := by
  induction l generalizing seen with
  | nil => simp [pyDedupGo] at h
  | cons x rest ih =>
    by_cases hx : x ∈ seen
    · simp only [pyDedupGo, if_pos hx] at h
      exact ih h
    · simp only [pyDedupGo, if_neg hx, List.mem_cons] at h
      rcases h with h | h
      · exact h ▸ hx
      · intro hs
        exact (ih h) (List.mem_cons_of_mem _ hs)

theorem pyDedupGo_nodup (l : List String) : ∀ seen, (pyDedupGo seen l).Nodup := by
  induction l with
  | nil => intro seen; simp [pyDedupGo]
  | cons x rest ih =>
    intro seen
    by_cases hx : x ∈ seen
    · simpa only [pyDedupGo, if_pos hx] using ih seen
    · simp only [pyDedupGo, if_neg hx, List.nodup_cons]
      refine ⟨fun hmem => ?_, ih _⟩
      exact (pyDedupGo_not_mem_seen hmem) (List.mem_cons_self _ _)

theorem foldl_eq_pyDedupGo (l : List String) :
    ∀ (acc seen : List String), (∀ x, x ∈ seen ↔ x ∈ acc) →
      l.foldl (fun a q => if q ∈ a then a else a ++ [q]) acc = acc ++ pyDedupGo seen l := by
  induction l with
  | nil => intro acc seen _; simp [pyDedupGo]
  | cons q rest ih =>
    intro acc seen hiff
    by_cases hq : q ∈ acc
    · have hqs : q ∈ seen := (hiff q).mpr hq
      simp only [List.foldl_cons, if_pos hq, pyDedupGo, if_pos hqs]
      exact ih acc seen hiff
    · have hqs : q ∉ seen := fun hs => hq ((hiff q).mp hs)
      simp only [List.foldl_cons, if_neg hq, pyDedupGo, if_neg hqs]
      rw [ih (acc ++ [q]) (q :: seen) (by intro x; simp [hiff x, or_comm])]
      simp

theorem pyDedup_eq_firstOccurFold (l : List String) : pyDedup l = firstOccurFold l := by
  have := foldl_eq_pyDedupGo l [] [] (by simp)
  simpa [firstOccurFold, pyDedup] using this.symm

theorem head_fails_of_dropWhile {p : Char → Bool} {cs : List Char} {c : Char}
    {rest : List Char} (h : cs.dropWhile p = c :: rest) : p c = false := by
  induction cs with
  | nil => simp [List.dropWhile] at h
  | cons a as ih =>
    by_cases hp : p a = true
    · rw [List.dropWhile_cons, if_pos hp] at h
      exact ih h
    · rw [List.dropWhile_cons, if_neg hp] at h
      injection h with h1 _
      subst h1
      simp only [Bool.not_eq_true] at hp
      exact hp

theorem pyStripList_has_nonspace {cs : List Char} (h : pyStripList cs ≠ []) :
    ∃ c ∈ pyStripList cs, isSpaceChar c = false := by
  rcases hm : ((cs.dropWhile isSpaceChar).reverse.dropWhile isSpaceChar) with _ | ⟨c, rest⟩
  · exact absurd (by simp [pyStripList, hm]) h
  · refine ⟨c, ?_, head_fails_of_dropWhile hm⟩
    simp [pyStripList, hm]

theorem pyStrip_not_blank {s : String} (h : pyStrip s ≠ "") :
    pyIsBlank (pyStrip s) = false := by
  have hne : pyStripList s.toList ≠ [] := by
    intro hnil
    apply h
    show String.mk (pyStripList s.toList) = ""
    rw [hnil]
  obtain ⟨c, hc, hcs⟩ := pyStripList_has_nonspace hne
  simp only [pyIsBlank, pyStrip]
  rw [Bool.eq_false_iff]
  intro hall
  rw [List.all_eq_true] at hall
  have : (String.mk (pyStripList s.toList)).toList = pyStripList s.toList := rfl
  rw [this] at hall
  exact absurd (hall c hc) (by simp [hcs])

theorem dedupGo_mem_of_mem {l : List Track} {seen : List String} {u : Track}
    (h : u ∈ dedupGo seen l) : u ∈ l := by
  induction l generalizing seen with
  | nil => simp [dedupGo] at h
  | cons t rest ih =>
    by_cases hid : idVal t ≠ ""
    · by_cases hs : idVal t ∈ seen
      · simp only [dedupGo, if_pos hid, if_pos hs] at h
        exact List.mem_cons_of_mem _ (ih h)
      · simp only [dedupGo, if_pos hid, if_neg hs, List.mem_cons] at h
        rcases h with h | h
        · simp [h]
        · exact List.mem_cons_of_mem _ (ih h)
    · by_cases hs : trackKey t ∈ seen
      · simp only [dedupGo, if_neg hid, if_pos hs] at h
        exact List.mem_cons_of_mem _ (ih h)
      · simp only [dedupGo, if_neg hid, if_neg hs, List.mem_cons] at h
        rcases h with h | h
        · simp [h]
        · exact List.mem_cons_of_mem _ (ih h)

theorem dedupGo_key_not_seen {l : List Track} {seen : List String} {u : Track}
    (h : u ∈ dedupGo seen l) : keyOf u ∉ seen := by
  induction l generalizing seen with
  | nil => simp [dedupGo] at h
  | cons t rest ih =>
    by_cases hid : idVal t ≠ ""
    · by_cases hs : idVal t ∈ seen
      · exact ih (by simpa only [dedupGo, if_pos hid, if_pos hs] using h)
      · simp only [dedupGo, if_pos hid, if_neg hs, List.mem_cons] at h
        rcases h with h | h
        · subst h
          simpa only [keyOf, if_pos hid] using hs
        · intro hmem
          exact (ih h) (List.mem_cons_of_mem _ hmem)
    · by_cases hs : trackKey t ∈ seen
      · exact ih (by simpa only [dedupGo, if_neg hid, if_pos hs] using h)
      · simp only [dedupGo, if_neg hid, if_neg hs, List.mem_cons] at h
        rcases h with h | h
        · subst h
          simpa only [keyOf, if_neg hid] using hs
        · intro hmem
          exact (ih h) (List.mem_cons_of_mem _ hmem)

theorem dedupGo_countP_key_eq_zero {l : List Track} {seen : List String} {v : String}
    (hv : v ∈ seen) : (dedupGo seen l).countP (fun t => keyOf t == v) = 0 := by
  rw [List.countP_eq_zero]
  intro u hu
  simp only [beq_iff_eq]
  intro he
  exact (dedupGo_key_not_seen hu) (he ▸ hv)

theorem dedupGo_countP_key_le_one (l : List Track) (seen : List String) (v : String) :
    (dedupGo seen l).countP (fun t => keyOf t == v) ≤ 1 := by
  induction l generalizing seen with
  | nil => simp [dedupGo]
  | cons t rest ih =>
    by_cases hid : idVal t ≠ ""
    · by_cases hs : idVal t ∈ seen
      · simpa only [dedupGo, if_pos hid, if_pos hs] using ih seen
      · simp only [dedupGo, if_pos hid, if_neg hs, List.countP_cons]
        by_cases hv : keyOf t = v
        · have h0 : (dedupGo (idVal t :: seen) rest).countP (fun u => keyOf u == v) = 0 := by
            apply dedupGo_countP_key_eq_zero
            rw [← hv]
            simp [keyOf, if_pos hid]
          simp [h0, hv]
        · have : ((fun u => keyOf u == v) t) = false := by simp [hv]
          simpa [this] using ih (idVal t :: seen)
    · by_cases hs : trackKey t ∈ seen
      · simpa only [dedupGo, if_neg hid, if_pos hs] using ih seen
      · simp only [dedupGo, if_neg hid, if_neg hs, List.countP_cons]
        by_cases hv : keyOf t = v
        · have h0 : (dedupGo (trackKey t :: seen) rest).countP (fun u => keyOf u == v) = 0 := by
            apply dedupGo_countP_key_eq_zero
            rw [← hv]
            simp [keyOf, if_neg hid]
          simp [h0, hv]
        · have : ((fun u => keyOf u == v) t) = false := by simp [hv]
          simpa [this] using ih (trackKey t :: seen)

theorem dedupGo_exists_key {l : List Track} {v : String} :
    ∀ seen, v ∉ seen → (∃ t ∈ l, keyOf t = v) →
      ∃ u ∈ dedupGo seen l, keyOf u = v := by
  induction l with
  | nil => intro seen _ h; simp at h
  | cons t rest ih =>
    intro seen hv h
    by_cases hk : keyOf t = v
    · by_cases hid : idVal t ≠ ""
      · have hs : idVal t ∉ seen := by
          rw [show idVal t = v from by simpa only [keyOf, if_pos hid] using hk]
          exact hv
        refine ⟨t, ?_, hk⟩
        simp [dedupGo, if_pos hid, if_neg hs]
      · have hs : trackKey t ∉ seen := by
          rw [show trackKey t = v from by simpa only [keyOf, if_neg hid] using hk]
          exact hv
        refine ⟨t, ?_, hk⟩
        simp [dedupGo, if_neg hid, if_neg hs]
    · have hrest : ∃ u ∈ rest, keyOf u = v := by
        rcases h with ⟨u, hu, hku⟩
        rcases List.mem_cons.mp hu with h1 | h1
        · exact absurd (h1 ▸ hku) hk
        · exact ⟨u, h1, hku⟩
      by_cases hid : idVal t ≠ ""
      · by_cases hs : idVal t ∈ seen
        · rcases ih seen hv hrest with ⟨u, hu, hku⟩
          exact ⟨u, by simp only [dedupGo, if_pos hid, if_pos hs]; exact hu, hku⟩
        · have hv2 : v ∉ idVal t :: seen := by
            intro hmem
            rcases List.mem_cons.mp hmem with h1 | h1
            · exact hk (by simp only [keyOf, if_pos hid]; exact h1.symm)
            · exact hv h1
          rcases ih _ hv2 hrest with ⟨u, hu, hku⟩
          refine ⟨u, ?_, hku⟩
          simp only [dedupGo, if_pos hid, if_neg hs]
          exact List.mem_cons_of_mem _ hu
      · by_cases hs : trackKey t ∈ seen
        · rcases ih seen hv hrest with ⟨u, hu, hku⟩
          exact ⟨u, by simp only [dedupGo, if_neg hid, if_pos hs]; exact hu, hku⟩
        · have hv2 : v ∉ trackKey t :: seen := by
            intro hmem
            rcases List.mem_cons.mp hmem with h1 | h1
            · exact hk (by simp only [keyOf, if_neg hid]; exact h1.symm)
            · exact hv h1
          rcases ih _ hv2 hrest with ⟨u, hu, hku⟩
          refine ⟨u, ?_, hku⟩
          simp only [dedupGo, if_neg hid, if_neg hs]
          exact List.mem_cons_of_mem _ hu

theorem legacy_empty_of_empty_catalog (searchTrackFn : String → String → Option Track)
    (legacyAi : Except Unit (Analysis × List String × Int)) (prompt era : String)
    (hst : ∀ t a, searchTrackFn t a = none) :
    recommend_legacy_internal searchTrackFn legacyAi prompt era = .ok [] "legacy" := by
  have hnil : ((pyStrip (get_sample_suggestions legacyAi)).splitOn "\n").filterMap
      (fun line => (parseLegacyLine line).bind
        (fun p => searchTrackFn (pyStrip p.1) (pyStrip p.2))) = [] := by
    rw [List.filterMap_eq_nil_iff]
    intro line _
    cases parseLegacyLine line <;> simp [hst]
  show HttpResult.ok (((pyStrip (get_sample_suggestions legacyAi)).splitOn "\n").filterMap
      (fun line => (parseLegacyLine line).bind
        (fun p => searchTrackFn (pyStrip p.1) (pyStrip p.2)))) "legacy" = .ok [] "legacy"
  rw [hnil]

theorem fallbackSearch_none_of_empty_catalog
    (searchTrackFn : String → String → Option Track) (query : String)
    (hst : ∀ t a, searchTrackFn t a = none) :
    fallbackSearch searchTrackFn query = none := by
  unfold fallbackSearch
  cases parseQuotedBy (pyStrip query) <;> simp [hst]

theorem searchLoopGo_cons_empty (searchEnh : String → List Track)
    (searchTrackFn : String → String → Option Track) (refresh : Bool)
    (q : String) (rest : List String) (acc : List Track) (cnt : Nat) (iss : List String)
    (hq : searchEnh q = []) (hfb : fallbackSearch searchTrackFn q = none) :
    searchLoopGo searchEnh searchTrackFn refresh (q :: rest) acc cnt iss =
      if (refresh = false ∧ 20 ≤ acc.length) ∨ (refresh = true ∧ 30 ≤ acc.length) then
        ⟨acc, cnt + 1, iss ++ [q]⟩
      else searchLoopGo searchEnh searchTrackFn refresh rest acc (cnt + 1) (iss ++ [q]) := by
  simp only [searchLoopGo, hq, hfb]
  rw [if_neg (by simp)]

theorem searchLoopGo_cons_found (searchEnh : String → List Track)
    (searchTrackFn : String → String → Option Track) (refresh : Bool)
    (q : String) (rest : List String) (acc : List Track) (cnt : Nat) (iss : List String)
    (hq : (searchEnh q).isEmpty = false) :
    searchLoopGo searchEnh searchTrackFn refresh (q :: rest) acc cnt iss =
      searchLoopGo searchEnh searchTrackFn refresh rest (acc ++ searchEnh q) (cnt + 1)
        (iss ++ [q]) := by
  simp only [searchLoopGo, hq]
  rw [if_pos trivial]

theorem searchLoopGo_cons_fallback (searchEnh : String → List Track)
    (searchTrackFn : String → String → Option Track) (refresh : Bool)
    (q : String) (rest : List String) (acc : List Track) (cnt : Nat) (iss : List String)
    (hq : searchEnh q = []) (t : Track) (hfb : fallbackSearch searchTrackFn q = some t) :
    searchLoopGo searchEnh searchTrackFn refresh (q :: rest) acc cnt iss =
      if (refresh = false ∧ 20 ≤ (acc ++ [t]).length) ∨
          (refresh = true ∧ 30 ≤ (acc ++ [t]).length) then
        ⟨acc ++ [t], cnt + 1, iss ++ [q]⟩
      else searchLoopGo searchEnh searchTrackFn refresh rest (acc ++ [t]) (cnt + 1)
        (iss ++ [q]) := by
  simp only [searchLoopGo, hq, hfb]
  rw [if_neg (by simp)]

theorem searchLoopGo_tracks_of_empty_catalog (searchEnh : String → List Track)
    (searchTrackFn : String → String → Option Track) (refresh : Bool)
    (hse : ∀ q, searchEnh q = []) (hst : ∀ t a, searchTrackFn t a = none) :
    ∀ (qs : List String) (acc : List Track) (cnt : Nat) (iss : List String),
      (searchLoopGo searchEnh searchTrackFn refresh qs acc cnt iss).tracks = acc := by
  intro qs
  induction qs with
  | nil => intro acc cnt iss; rfl
  | cons q rest ih =>
    intro acc cnt iss
    rw [searchLoopGo_cons_empty searchEnh searchTrackFn refresh q rest acc cnt iss (hse q)
      (fallbackSearch_none_of_empty_catalog searchTrackFn q hst)]
    split
    · rfl
    · exact ih acc (cnt + 1) (iss ++ [q])

theorem searchLoopGo_issued_takes (searchEnh : String → List Track)
    (searchTrackFn : String → String → Option Track) (refresh : Bool) :
    ∀ (qs : List String) (acc : List Track) (cnt : Nat) (iss : List String),
      ∃ k, (searchLoopGo searchEnh searchTrackFn refresh qs acc cnt iss).issued =
        iss ++ qs.take k := by
  intro qs
  induction qs with
  | nil => intro acc cnt iss; exact ⟨0, by simp [searchLoopGo]⟩
  | cons q rest ih =>
    intro acc cnt iss
    rcases he : (searchEnh q).isEmpty with _ | _
    · rw [searchLoopGo_cons_found searchEnh searchTrackFn refresh q rest acc cnt iss he]
      rcases ih (acc ++ searchEnh q) (cnt + 1) (iss ++ [q]) with ⟨k, hk⟩
      exact ⟨k + 1, by simp [hk, List.take_succ_cons]⟩
    · have hq : searchEnh q = [] := List.isEmpty_iff.mp he
      rcases hfb : fallbackSearch searchTrackFn q with _ | t
      · rw [searchLoopGo_cons_empty searchEnh searchTrackFn refresh q rest acc cnt iss hq hfb]
        split
        · exact ⟨1, by simp [List.take_succ_cons]⟩
        · rcases ih acc (cnt + 1) (iss ++ [q]) with ⟨k, hk⟩
          exact ⟨k + 1, by simp [hk, List.take_succ_cons]⟩
      · rw [searchLoopGo_cons_fallback searchEnh searchTrackFn refresh q rest acc cnt iss hq
          t hfb]
        split
        · exact ⟨1, by simp [List.take_succ_cons]⟩
        · rcases ih (acc ++ [t]) (cnt + 1) (iss ++ [q]) with ⟨k, hk⟩
          exact ⟨k + 1, by simp [hk, List.take_succ_cons]⟩

theorem searchLoopGo_issued_all (searchEnh : String → List Track)
    (searchTrackFn : String → String → Option Track) (refresh : Bool) :
    ∀ (qs : List String), (∀ q ∈ qs, searchEnh q ≠ []) →
      ∀ (acc : List Track) (cnt : Nat) (iss : List String),
        (searchLoopGo searchEnh searchTrackFn refresh qs acc cnt iss).issued = iss ++ qs := by
  intro qs
  induction qs with
  | nil => intro _ acc cnt iss; simp [searchLoopGo]
  | cons q rest ih =>
    intro hne acc cnt iss
    have h1 : (searchEnh q).isEmpty = false := by
      rcases hq : searchEnh q with _ | _
      · exact absurd hq (hne q (List.mem_cons_self _ _))
      · rfl
    rw [searchLoopGo_cons_found searchEnh searchTrackFn refresh q rest acc cnt iss h1]
    rw [ih (fun p hp => hne p (List.mem_cons_of_mem _ hp)) (acc ++ searchEnh q) (cnt + 1)
      (iss ++ [q])]
    simp

theorem searchLoopGo_tracks_bound (searchEnh : String → List Track)
    (searchTrackFn : String → String → Option Track) (refresh : Bool)
    (hse : ∀ q, searchEnh q = []) :
    ∀ (qs : List String) (acc : List Track) (cnt : Nat) (iss : List String),
      acc.length < (if refresh then 30 else 20) →
      (searchLoopGo searchEnh searchTrackFn refresh qs acc cnt iss).tracks.length ≤
        (if refresh then 30 else 20) := by
  intro qs
  induction qs with
  | nil => intro acc cnt iss hlt; exact le_of_lt hlt
  | cons q rest ih =>
    intro acc cnt iss hlt
    rcases hfb : fallbackSearch searchTrackFn q with _ | t
    · rw [searchLoopGo_cons_empty searchEnh searchTrackFn refresh q rest acc cnt iss (hse q) hfb]
      split
      · exact le_of_lt hlt
      · exact ih acc (cnt + 1) (iss ++ [q]) hlt
    · rw [searchLoopGo_cons_fallback searchEnh searchTrackFn refresh q rest acc cnt iss (hse q)
        t hfb]
      split
      · show (acc ++ [t]).length ≤ _
        rw [List.length_append]
        rcases refresh with _ | _ <;> simp at hlt ⊢ <;> omega
      · rename_i hstop
        apply ih
        rw [List.length_append]
        rcases refresh with _ | _ <;> (simp at hlt hstop ⊢; omega)

theorem ok_min_le_65 (a b c s : Int) (ha : a ≤ 30) (hb : b ≤ 25) (hc : c ≤ 10)
    (h : (Except.ok ((a + b + c) ⊓ 100) : Except String Int) = Except.ok s) : s ≤ 65 := by
  rw [Except.ok.injEq] at h
  have := min_le_left (a + b + c) (100 : Int)
  omega

theorem ok_min_le_40 (a c s : Int) (ha : a ≤ 30) (hc : c ≤ 10)
    (h : (Except.ok ((a + c) ⊓ 100) : Except String Int) = Except.ok s) : s ≤ 65 := by
  rw [Except.ok.injEq] at h
  have := min_le_left (a + c) (100 : Int)
  omega

theorem calc_score_le_65 (t : RawTrack) (s : Int)
    (h : calculate_sample_score t = .ok s) : s ≤ 65 := by
  simp only [calculate_sample_score] at h
  have h1 : (if (t.popularity.getD 50) < 30 then (30 : Int)
      else if (t.popularity.getD 50) < 60 then 15 else 0) ≤ 30 := by
    split_ifs <;> omega
  have h3 : (if t.explicit then (10 : Int) else 0) ≤ 10 := by
    split_ifs <;> omega
  by_cases hd : t.release_date ≠ ""
  · rw [if_pos hd] at h
    split at h
    · exact absurd h (by simp)
    · rename_i year heq
      have h2 : (if year < 1980 then (25 : Int) else if year < 1990 then 20
          else if year < 2000 then 15 else 0) ≤ 25 := by
        split_ifs <;> omega
      exact ok_min_le_65 _ _ _ s h1 h2 h3 h
  · rw [if_neg hd] at h
    exact ok_min_le_40 _ _ s h1 h3 h

theorem rank_track_fst_indep {σ : Type} (R : RngModel σ) (analysis : Analysis)
    (t : Track) (st st' : σ) :
    (rank_track R analysis (some 42) t st).1 = (rank_track R analysis (some 42) t st').1 := by
  simp [rank_track, truthyInt]

theorem rankMap_fst_indep {σ : Type} (R : RngModel σ) (analysis : Analysis) :
    ∀ (l : List Track) (st st' : σ),
      (rankMap R analysis (some 42) l st).1 = (rankMap R analysis (some 42) l st').1 := by
  intro l
  induction l with
  | nil => intro st st'; rfl
  | cons t ts ih =>
    intro st st'
    show ((t, (rank_track R analysis (some 42) t st).1) ::
        (rankMap R analysis (some 42) ts (rank_track R analysis (some 42) t st).2).1, _).1 =
      ((t, (rank_track R analysis (some 42) t st').1) ::
        (rankMap R analysis (some 42) ts (rank_track R analysis (some 42) t st').2).1, _).1
    simp only
    rw [rank_track_fst_indep R analysis t st st', ih]

/-! ## Claim theorems -/

/-- C1 (counterexample): for the scenario track with popularity 15, release
date `1975-03-01` and `explicit = true`, `calculate_sample_score` does
return 65, but `grade_track_for_sampling` does **not** assign grade `"A"`
(65 is below the `score >= 70` threshold for `"A"`). -/
theorem sample_scenario_not_grade_A :
    calculate_sample_score ⟨some 15, "1975-03-01", true⟩ = .ok 65 ∧
    grade_track_for_sampling ⟨some 15, "1975-03-01", true⟩ ≠ .ok "A" := by
  constructor
  · rfl
  · intro h
    have hB : grade_track_for_sampling ⟨some 15, "1975-03-01", true⟩ = .ok "B" := rfl
    rw [hB] at h
    exact absurd (Except.ok.inj h) (by decide)

/-- C1 (amended): for the scenario track `popularity = 15`,
`release_date = "1975-03-01"`, `explicit = true`, `calculate_sample_score`
returns 30 (popularity < 30) + 25 (year < 1980) + 10 (explicit) = 65,
capped at 100, and `grade_track_for_sampling` assigns the grade `"B"`
(grade `"A"` would require a score of at least 70). -/
theorem sample_scenario_score65_gradeB :
    calculate_sample_score ⟨some 15, "1975-03-01", true⟩ = .ok 65 ∧
    grade_track_for_sampling ⟨some 15, "1975-03-01", true⟩ = .ok "B" :=
  ⟨rfl, rfl⟩

/-- C10: for every track, `calculate_sample_score` can return at most
30 + 25 + 10 = 65 (so the cap at 100 never binds), and
`grade_track_for_sampling` therefore never returns `"A"`: every grade it
returns is one of `"B"`, `"C"`, `"D"`. -/
theorem grade_never_A (t : RawTrack) :
    (∀ s, calculate_sample_score t = .ok s → s ≤ 65) ∧
    (∀ g, grade_track_for_sampling t = .ok g →
      g ≠ "A" ∧ (g = "B" ∨ g = "C" ∨ g = "D")) := by
  refine ⟨fun s h => calc_score_le_65 t s h, fun g h => ?_⟩
  unfold grade_track_for_sampling at h
  split at h
  · exact absurd h (by simp)
  · rename_i score hs
    have hle : score ≤ 65 := calc_score_le_65 t score hs
    rw [Except.ok.injEq] at h
    rw [if_neg (by omega)] at h
    split_ifs at h <;> subst h <;> simp

/-- C10 (witness): the bound and the grade classification instantiated at
the concrete scenario track. -/
theorem grade_never_A_witness :
    (65 : Int) ≤ 65 ∧
    ("B" ≠ "A" ∧ ("B" = "B" ∨ "B" = "C" ∨ "B" = "D")) :=
  ⟨(grade_never_A ⟨some 15, "1975-03-01", true⟩).1 65 rfl,
   (grade_never_A ⟨some 15, "1975-03-01", true⟩).2 "B" rfl⟩

/-- C8: for the prompt `"90s boom bap drums"`, the fallback analysis (taken
when the completion API fails) matches the genre keyword `"boom bap"` and
produces `era = "90s"` and
`pioneer_artists = ["DJ Premier", "Pete Rock", "Large Professor"]`
(together with the rest of the keyword-table record), for any persona
`approach` string. -/
theorem fallback_boom_bap (approach : String) :
    create_fallback_analysis "90s boom bap drums" approach =
      .ok { style_description := "hip hop style music from the 90s era"
          , pioneer_artists := ["DJ Premier", "Pete Rock", "Large Professor"]
          , contemporary_artists := ["Modern Artist 1", "Modern Artist 2"]
          , classic_tracks := ["Classic hip hop track"]
          , key_albums := ["Essential hip hop album"]
          , related_styles := ["hip hop"]
          , instruments := ["drums", "bass", "samples"]
          , era := "90s"
          , mood_keywords := ["rhythmic", "groovy"]
          , avoid_terms := ["90s"]
          , analysis_approach := approach } := rfl

/-- C3 (code-bug evaluation): for the whitespace-only prompt `" "` with a
failed completion call, `get_prompt_analysis` does not return a populated
analysis — the uncaught `IndexError` raised inside
`create_fallback_analysis` (at `[prompt.split()[0]]`) propagates, so the
function raises instead of returning, for every generator state. -/
theorem prompt_analysis_whitespace_raises {σ : Type} (R : RngModel σ) (st : σ) :
    (get_prompt_analysis R (.error ()) " " none st).1 =
      .error "IndexError: list index out of range" := rfl

/-- C7: with `era = "90s"` the ranker's era bonus is exactly +25 for a
track whose `release_date` has a four-char year prefix in 1990..1999, and 0
for a track dated `2000-01-01`; moreover the decade bonus is 0 whenever the
era label contains none of `"70s"`, `"80s"`, `"90s"`. -/
theorem era_bonus_90s (era rd : String) (y : Int) :
    (era = "90s" → pyInt (String.mk (rd.toList.take 4)) = some y → 1990 ≤ y → y ≤ 1999 →
      eraBonus era rd = 25)
    ∧ eraBonus "90s" "2000-01-01" = 0
    ∧ (strContains era "70s" = false → strContains era "80s" = false →
        strContains era "90s" = false → eraBonus era rd = 0) := by
  refine ⟨?_, rfl, ?_⟩
  · intro h1 h2 h3 h4
    subst h1
    have hrd : rd ≠ "" := by
      intro he
      subst he
      exact Option.noConfusion h2
    unfold eraBonus
    rw [if_pos ⟨by decide, hrd⟩, h2]
    show (if strContains "90s" "90s" = true ∧ 1990 ≤ y ∧ y ≤ 1999 then (25 : Int)
      else if strContains "90s" "80s" = true ∧ 1980 ≤ y ∧ y ≤ 1989 then 25
      else if strContains "90s" "70s" = true ∧ 1970 ≤ y ∧ y ≤ 1979 then 25 else 0) = 25
    rw [if_pos ⟨by decide, h3, h4⟩]
  · intro h70 h80 h90
    unfold eraBonus
    by_cases hc : era ≠ "" ∧ rd ≠ ""
    · rw [if_pos hc]
      rcases hp : pyInt (String.mk (rd.toList.take 4)) with _ | yy
      · rfl
      · show (if strContains era "90s" = true ∧ 1990 ≤ yy ∧ yy ≤ 1999 then (25 : Int)
          else if strContains era "80s" = true ∧ 1980 ≤ yy ∧ yy ≤ 1989 then 25
          else if strContains era "70s" = true ∧ 1970 ≤ yy ∧ yy ≤ 1979 then 25 else 0) = 0
        rw [if_neg (by simp [h90]), if_neg (by simp [h80]), if_neg (by simp [h70])]
    · rw [if_neg hc]

/-- C7 (witness): the theorem instantiated at `era = "90s"`,
`release_date = "1995-06-01"`. -/
theorem era_bonus_90s_witness : eraBonus "90s" "1995-06-01" = 25 :=
  (era_bonus_90s "90s" "1995-06-01" 1995).1 rfl (by decide) (by decide) (by decide)

/-- C9: determinism given the seed, stated as independence of the
process-global generator state.  With `refresh_seed = 42` the combined,
shuffled query list of the pipeline, the per-track scores produced by the
ranker over the deduplicated tracks, and the ranker's final ordered output
are all identical across two runs started from arbitrary (and arbitrarily
different) generator states, because the source re-seeds the generator from
the refresh seed (resp. seed + track hash) before every draw. -/
theorem pipeline_deterministic_in_rng_state {σ : Type} (R : RngModel σ)
    (prompt : String) (analysis : Analysis) (tracks : List Track) (st st' : σ) :
    (combine_and_shuffle R prompt analysis 42 st).1 =
      (combine_and_shuffle R prompt analysis 42 st').1
    ∧ (rankMap R analysis (some 42) (dedupTracks tracks) st).1 =
      (rankMap R analysis (some 42) (dedupTracks tracks) st').1
    ∧ (ai_filter_and_rank_tracks R tracks prompt analysis (some 42) st).1 =
      (ai_filter_and_rank_tracks R tracks prompt analysis (some 42) st').1 := by
  refine ⟨?_, rankMap_fst_indep R analysis _ st st', ?_⟩
  · simp [combine_and_shuffle]
  · by_cases ht : tracks.isEmpty = true
    · simp [ai_filter_and_rank_tracks, ht]
    · simp only [ai_filter_and_rank_tracks, if_neg ht]
      rw [rankMap_fst_indep R analysis (dedupTracks tracks) st st']

/-- C5: for every prompt, analysis and refresh seed,
`generate_artist_focused_queries` returns at most 10 queries, pairwise
distinct as strings, none of them empty or whitespace-only; and the result
is exactly the cleaned query list with duplicates removed preserving first
occurrence, truncated to 10. -/
theorem artist_queries_clean (prompt : String) (analysis : Analysis) (seed : Option Int) :
    (generate_artist_focused_queries prompt analysis seed).length ≤ 10
    ∧ (generate_artist_focused_queries prompt analysis seed).Nodup
    ∧ (∀ q ∈ generate_artist_focused_queries prompt analysis seed, pyIsBlank q = false)
    ∧ generate_artist_focused_queries prompt analysis seed =
        (firstOccurFold (cleaned_queries prompt analysis)).take 10 := by
  refine ⟨?_, ?_, ?_, ?_⟩
  · exact List.length_take_le _ _
  · exact List.Nodup.sublist (List.take_sublist _ _) (pyDedupGo_nodup _ [])
  · intro q hq
    have h1 : q ∈ pyDedup (cleaned_queries prompt analysis) :=
      (List.take_sublist 10 _).subset hq
    have h2 : q ∈ cleaned_queries prompt analysis := pyDedupGo_mem_of_mem h1
    simp only [cleaned_queries, List.mem_filterMap] at h2
    rcases h2 with ⟨q0, _, hq0⟩
    split_ifs at hq0 with hcond
    rw [Option.some.injEq] at hq0
    rw [← hq0]
    exact pyStrip_not_blank hcond.2
  · simp only [generate_artist_focused_queries, pyDedup_eq_firstOccurFold]

/-- C5 (witness): a concrete generated query (from a boom-bap analysis and
the prompt `"boom bap drums"`) is non-blank, via the theorem. -/
theorem artist_queries_clean_witness :
    pyIsBlank "artist:\x22DJ Premier\x22" = false :=
  (artist_queries_clean "boom bap drums"
      ⟨"d", ["DJ Premier", "Pete Rock", "Large Professor"], ["A1", "B1"], [], [],
        ["hip hop"], [], "90s", [], [], "x"⟩ none).2.2.1
    "artist:\x22DJ Premier\x22" (by decide)

/-- C6 (counterexample): ids and `title-artist` keys share the single
`seen_ids` set.  In the input below, an id-less track titled `x` by `y`
registers the key `x-y` first; the two subsequent records with identical id
`x-y` are then both dropped, so the deduplicated output contains **zero**
records with that id — not exactly one, as the claim states. -/
theorem dedup_tracks_claim_false :
    ([⟨none, "x", "y", ""⟩, ⟨some "x-y", "t1", "a1", ""⟩, ⟨some "x-y", "t2", "a2", ""⟩] :
        List Track).countP (fun t => idVal t == "x-y") = 2
    ∧ (dedupTracks [⟨none, "x", "y", ""⟩, ⟨some "x-y", "t1", "a1", ""⟩,
        ⟨some "x-y", "t2", "a2", ""⟩]).countP (fun t => idVal t == "x-y") = 0 := by
  constructor <;> decide

/-- C6 (amended): the ranker's deduplication keeps the first occurrence per
truthy id and keys id-less tracks by `title + "-" + artist`, but both kinds
of key live in one shared seen-set.  Unconditionally, the deduplicated
output contains at most one record per id and at most one id-less record
per `title-artist` key; it contains **exactly** one record with a given id
(resp. id-less records' key) provided no id-less record's `title-artist`
key collides with that id (resp. no record's id collides with that key). -/
theorem dedup_tracks_amended (tracks : List Track) :
    (∀ v : String, v ≠ "" → (dedupTracks tracks).countP (fun t => idVal t == v) ≤ 1)
    ∧ (∀ k : String,
        (dedupTracks tracks).countP (fun t => idVal t == "" && trackKey t == k) ≤ 1)
    ∧ (∀ v : String, v ≠ "" → (∃ t ∈ tracks, idVal t = v) →
        (∀ t ∈ tracks, ¬(idVal t = "" ∧ trackKey t = v)) →
        (dedupTracks tracks).countP (fun t => idVal t == v) = 1)
    ∧ (∀ k : String, (∃ t ∈ tracks, idVal t = "" ∧ trackKey t = k) →
        (∀ t ∈ tracks, idVal t ≠ k) →
        (dedupTracks tracks).countP (fun t => idVal t == "" && trackKey t == k) = 1) := by
  have hmono1 : ∀ v : String, v ≠ "" →
      (dedupTracks tracks).countP (fun t => idVal t == v) ≤ 1 := by
    intro v hv
    refine le_trans (List.countP_mono_left ?_) (dedupGo_countP_key_le_one tracks [] v)
    intro t _ hp
    simp only [beq_iff_eq] at hp ⊢
    simp only [keyOf]
    rw [if_pos (by rw [hp]; exact hv)]
    exact hp
  have hmono2 : ∀ k : String,
      (dedupTracks tracks).countP (fun t => idVal t == "" && trackKey t == k) ≤ 1 := by
    intro k
    refine le_trans (List.countP_mono_left ?_) (dedupGo_countP_key_le_one tracks [] k)
    intro t _ hp
    simp only [Bool.and_eq_true, beq_iff_eq] at hp
    simp only [beq_iff_eq, keyOf]
    rw [if_neg (by simp [hp.1])]
    exact hp.2
  refine ⟨hmono1, hmono2, ?_, ?_⟩
  · intro v hv hex hnc
    rcases hex with ⟨t, ht, htv⟩
    have hkey : keyOf t = v := by
      simp only [keyOf]
      rw [if_pos (by rw [htv]; exact hv)]
      exact htv
    obtain ⟨u, hu, hku⟩ :=
      dedupGo_exists_key ([] : List String) (by simp) ⟨t, ht, hkey⟩
    have huid : idVal u ≠ "" := by
      intro h0
      have hconf : trackKey u = v := by
        simpa only [keyOf, if_neg (by simp [h0] : ¬ idVal u ≠ "")] using hku
      exact (hnc u (dedupGo_mem_of_mem hu)) ⟨h0, hconf⟩
    have huv : idVal u = v := by
      simpa only [keyOf, if_pos huid] using hku
    have hpos : 0 < (dedupTracks tracks).countP (fun t => idVal t == v) :=
      List.countP_pos_iff.mpr ⟨u, hu, by simp [huv]⟩
    have hle := hmono1 v hv
    omega
  · intro k hex hnc
    rcases hex with ⟨t, ht, ht0, htk⟩
    have hkey : keyOf t = k := by
      simp only [keyOf]
      rw [if_neg (by simp [ht0] : ¬ idVal t ≠ "")]
      exact htk
    obtain ⟨u, hu, hku⟩ :=
      dedupGo_exists_key ([] : List String) (by simp) ⟨t, ht, hkey⟩
    have hu0 : idVal u = "" := by
      by_contra h0
      have : idVal u = k := by simpa only [keyOf, if_pos h0] using hku
      exact (hnc u (dedupGo_mem_of_mem hu)) this
    have hukey : trackKey u = k := by
      simpa only [keyOf, if_neg (by simp [hu0] : ¬ idVal u ≠ "")] using hku
    have hpos : 0 < (dedupTracks tracks).countP
        (fun t => idVal t == "" && trackKey t == k) :=
      List.countP_pos_iff.mpr ⟨u, hu, by simp [hu0, hukey]⟩
    have hle := hmono2 k
    omega

/-- C6 (witness): the exactly-one conclusions at two concrete inputs — a
pair of records sharing the id `i1`, and a pair of id-less records sharing
title `x` and artist `y`. -/
theorem dedup_tracks_amended_witness :
    (dedupTracks [⟨some "i1", "t", "a", ""⟩, ⟨some "i1", "t2", "a2", ""⟩]).countP
        (fun t => idVal t == "i1") = 1
    ∧ (dedupTracks [⟨none, "x", "y", ""⟩, ⟨none, "x", "y", ""⟩]).countP
        (fun t => idVal t == "" && trackKey t == "x-y") = 1 :=
  ⟨(dedup_tracks_amended [⟨some "i1", "t", "a", ""⟩, ⟨some "i1", "t2", "a2", ""⟩]).2.2.1
      "i1" (by decide) (by decide) (by decide),
   (dedup_tracks_amended [⟨none, "x", "y", ""⟩, ⟨none, "x", "y", ""⟩]).2.2.2
      "x-y" (by decide) (by decide)⟩

/-- C2: when every catalog search returns an empty result — the enhanced
search returns `[]` for every query and the single-track lookup returns
nothing — the `/recommend` handler answers a 200 response whose `tracks`
field is the empty list (after falling back to the legacy pipeline, whose
lookups also come up empty), and it does not raise, whatever the analysis
outcomes, era, and refresh seed were. -/
theorem recommend_empty_catalog (searchEnh : String → List Track)
    (searchTrackFn : String → String → Option Track)
    (ai legacyAi : Except Unit (Analysis × List String × Int))
    (prompt era : String) (refresh_seed : Option Int)
    (hp : prompt ≠ "")
    (hse : ∀ q, searchEnh q = [])
    (hst : ∀ t a, searchTrackFn t a = none) :
    recommend searchEnh searchTrackFn ai legacyAi prompt era refresh_seed =
      .ok [] "legacy" := by
  unfold recommend
  rw [if_neg hp]
  rcases ai with _ | ⟨a, qs, sd⟩
  · exact legacy_empty_of_empty_catalog searchTrackFn legacyAi prompt era hst
  · have htr : (searchLoop searchEnh searchTrackFn (truthyInt refresh_seed) qs).tracks = [] :=
      searchLoopGo_tracks_of_empty_catalog searchEnh searchTrackFn _ hse hst _ [] 0 []
    show (if (searchLoop searchEnh searchTrackFn (truthyInt refresh_seed) qs).tracks.isEmpty =
          true then recommend_legacy_internal searchTrackFn legacyAi prompt era
        else HttpResult.ok
          (searchLoop searchEnh searchTrackFn (truthyInt refresh_seed) qs).tracks
          "enhanced") = HttpResult.ok [] "legacy"
    rw [htr, if_pos (show ([] : List Track).isEmpty = true from rfl)]
    exact legacy_empty_of_empty_catalog searchTrackFn legacyAi prompt era hst

/-- C2 (witness): the handler evaluated with concretely empty search
results, `prompt = "x"`. -/
theorem recommend_empty_catalog_witness :
    recommend (fun _ => []) (fun _ _ => none) (.error ()) (.error ()) "x" "vintage" none =
      .ok [] "legacy" :=
  recommend_empty_catalog (fun _ => []) (fun _ _ => none) (.error ()) (.error ())
    "x" "vintage" none (by decide) (fun _ => rfl) (fun _ _ => rfl)

/-- C4 (counterexample): the early-stop threshold is not honoured on the
enhanced-search path.  With an enhanced search returning 10 tracks per
query and no refresh seed, the accumulated count already reaches 30 ≥ 20
after two queries, yet the loop issues all 8 enhanced searches (the
`continue` after a successful enhanced search skips the threshold check)
and accumulates 80 tracks. -/
theorem recommend_loop_no_early_stop :
    20 ≤ (searchLoop (fun _ => List.replicate 10 ⟨some "d", "t", "a", ""⟩) (fun _ _ => none)
        false ["q1", "q2"]).tracks.length
    ∧ (searchLoop (fun _ => List.replicate 10 ⟨some "d", "t", "a", ""⟩) (fun _ _ => none)
        false ["q1", "q2", "q3", "q4", "q5", "q6", "q7", "q8"]).issued.length = 8
    ∧ (searchLoop (fun _ => List.replicate 10 ⟨some "d", "t", "a", ""⟩) (fun _ _ => none)
        false ["q1", "q2", "q3", "q4", "q5", "q6", "q7", "q8"]).tracks.length = 80 := by
  refine ⟨by decide, by decide, by decide⟩

/-- C4 (amended): the orchestrator's loop issues one enhanced catalog
search per query over a prefix of the first 8 generated queries.  The
20/30 early-stop check runs only on iterations whose enhanced search
returned no tracks (a non-empty enhanced result `continue`s past it), so:
when every query's enhanced search returns tracks, all of the first 8
queries are searched regardless of the accumulated count; and when every
enhanced search returns empty, the loop stops as soon as the accumulated
count reaches 20 (falsy refresh seed) or 30 (truthy), so the accumulated
count never exceeds that threshold. -/
theorem recommend_loop_amended (searchEnh : String → List Track)
    (searchTrackFn : String → String → Option Track) (refresh : Bool)
    (qs : List String) :
    (∃ k, (searchLoop searchEnh searchTrackFn refresh qs).issued = (qs.take 8).take k)
    ∧ ((∀ q ∈ qs, searchEnh q ≠ []) →
        (searchLoop searchEnh searchTrackFn refresh qs).issued = qs.take 8)
    ∧ ((∀ q, searchEnh q = []) → refresh = false →
        (searchLoop searchEnh searchTrackFn refresh qs).tracks.length ≤ 20)
    ∧ ((∀ q, searchEnh q = []) → refresh = true →
        (searchLoop searchEnh searchTrackFn refresh qs).tracks.length ≤ 30) := by
  refine ⟨?_, ?_, ?_, ?_⟩
  · simpa using searchLoopGo_issued_takes searchEnh searchTrackFn refresh (qs.take 8) [] 0 []
  · intro hne
    have := searchLoopGo_issued_all searchEnh searchTrackFn refresh (qs.take 8)
      (fun q hq => hne q ((List.take_sublist 8 qs).subset hq)) [] 0 []
    simpa using this
  · intro hse hr
    subst hr
    exact searchLoopGo_tracks_bound searchEnh searchTrackFn false hse (qs.take 8) [] 0 []
      (by simp)
  · intro hse hr
    subst hr
    exact searchLoopGo_tracks_bound searchEnh searchTrackFn true hse (qs.take 8) [] 0 []
      (by simp)

/-- C4 (witness): the amended conjuncts instantiated concretely — an
always-successful enhanced search issues one search per query, and with
always-empty enhanced searches the accumulated count stays within 20
(resp. 30 with a truthy seed). -/
theorem recommend_loop_amended_witness :
    (searchLoop (fun _ => [⟨some "d", "t", "a", ""⟩]) (fun _ _ => none) false
        ["a", "b"]).issued = ["a", "b"].take 8
    ∧ (searchLoop (fun _ => []) (fun _ _ => none) false ["a", "b"]).tracks.length ≤ 20
    ∧ (searchLoop (fun _ => []) (fun _ _ => none) true ["a", "b"]).tracks.length ≤ 30 :=
  ⟨(recommend_loop_amended (fun _ => [⟨some "d", "t", "a", ""⟩]) (fun _ _ => none) false
      ["a", "b"]).2.1 (by intro q _; simp),
   (recommend_loop_amended (fun _ => []) (fun _ _ => none) false ["a", "b"]).2.2.1
      (fun _ => rfl) rfl,
   (recommend_loop_amended (fun _ => []) (fun _ _ => none) true ["a", "b"]).2.2.2
      (fun _ => rfl) rfl⟩
